import Mathlib

/-!
Verification of the `nil` language server against its specification.

The development shallowly embeds the Rust sources:
  * `crates/ide/src/diagnostic.rs` — diagnostic kinds, severity, aspects;
  * `crates/ide/src/base.rs`       — `VfsPath`, `FileSet`, `SourceRoot`;
  * `crates/nil/src/state.rs`      — server state, request/notification
    dispatch, panic catching, cancellation handling, diagnostics publishing.

Rust `String` values that are inspected character-by-character (virtual
paths) are modelled as `List Char`; strings that are only compared or
concatenated (method names, messages, URIs) are modelled as Lean `String`.
Rust `HashMap`s are modelled as functions into `Option`.
-/

namespace Nil

/-! ## Diagnostics (`crates/ide/src/diagnostic.rs`) -/

/-- `syntax::ErrorKind`.  The variant list is exactly the one matched
exhaustively in `Diagnostic::severity`.  The payload of `MissingToken`
(a token kind) is opaque to the claims and modelled as `Nat`. -/
inductive SynErrorKind where
  | MultipleRoots
  | PathTrailingSlash
  | PathDuplicatedSlashes
  | MultipleNoAssoc
  | MissingToken (tok : Nat)
  | MissingExpr
  | MissingElemExpr
  | MissingAttr
  | MissingParamIdent
  | MissingBinding
  | NestTooDeep
deriving DecidableEq

/-- `ide::DiagnosticKind`. -/
inductive DiagnosticKind where
  | SyntaxError (kind : SynErrorKind)
  | InvalidDynamic
  | DuplicatedKey
  | EmptyInherit
  | EmptyLetIn
  | LetAttrset
  | UriLiteral
  | MergePlainRecAttrset
  | MergeRecAttrset
  | UndefinedName
  | UnusedBinding
  | UnusedWith
  | UnusedRec
deriving DecidableEq

/-- `ide::Severity`. -/
inductive Severity where
  | Error
  | Warning
  | IncompleteSyntax
deriving DecidableEq

/-- `rowan::TextRange`, a pair of byte offsets. -/
structure TextRange where
  start : Nat
  stop : Nat
deriving DecidableEq

/-- `ide::FileId(u32)`. -/
structure FileId where
  id : Nat
deriving DecidableEq

/-- `ide::FileRange`. -/
structure FileRange where
  file_id : FileId
  range : TextRange
deriving DecidableEq

/-- `ide::Diagnostic`. -/
structure Diagnostic where
  range : TextRange
  kind : DiagnosticKind
  notes : List (FileRange × String)
deriving DecidableEq

/-- `Diagnostic::severity`. -/
def Diagnostic.severity (d : Diagnostic) : Severity :=
  match d.kind with
  | .InvalidDynamic
  | .DuplicatedKey
  | .UndefinedName => .Error
  | .EmptyInherit
  | .EmptyLetIn
  | .LetAttrset
  | .UriLiteral
  | .MergePlainRecAttrset
  | .MergeRecAttrset
  | .UnusedBinding
  | .UnusedWith
  | .UnusedRec => .Warning
  | .SyntaxError kind =>
    match kind with
    | .MultipleRoots
    | .PathTrailingSlash
    | .PathDuplicatedSlashes
    | .MultipleNoAssoc => .Error
    | .MissingToken _
    | .MissingExpr
    | .MissingElemExpr
    | .MissingAttr
    | .MissingParamIdent
    | .MissingBinding
    | .NestTooDeep => .IncompleteSyntax

/-- `Diagnostic::is_unnecessary`. -/
def Diagnostic.is_unnecessary (d : Diagnostic) : Bool :=
  match d.kind with
  | .EmptyInherit | .UnusedBinding | .UnusedWith | .UnusedRec => true
  | _ => false

/-- `Diagnostic::is_deprecated`. -/
def Diagnostic.is_deprecated (d : Diagnostic) : Bool :=
  match d.kind with
  | .LetAttrset | .UriLiteral => true
  | _ => false

/-- Severity table as written in the specification (§6), to be compared
with the implementation's `Diagnostic::severity`. -/
def specSeverity : DiagnosticKind → Severity
  | .InvalidDynamic | .DuplicatedKey | .UndefinedName => .Error
  | .SyntaxError .MultipleRoots
  | .SyntaxError .PathTrailingSlash
  | .SyntaxError .PathDuplicatedSlashes
  | .SyntaxError .MultipleNoAssoc => .Error
  | .SyntaxError (.MissingToken _)
  | .SyntaxError .MissingExpr
  | .SyntaxError .MissingElemExpr
  | .SyntaxError .MissingAttr
  | .SyntaxError .MissingParamIdent
  | .SyntaxError .MissingBinding
  | .SyntaxError .NestTooDeep => .IncompleteSyntax
  | _ => .Warning

/-- The "unnecessary" aspect as written in the specification (§6):
exactly `EmptyInherit`, `UnusedBinding`, `UnusedWith`, `UnusedRec`. -/
def specUnnecessary : DiagnosticKind → Bool
  | .EmptyInherit | .UnusedBinding | .UnusedWith | .UnusedRec => true
  | _ => false

/-- The "deprecated" aspect as written in the specification (§6):
exactly `LetAttrset`, `UriLiteral`. -/
def specDeprecated : DiagnosticKind → Bool
  | .LetAttrset | .UriLiteral => true
  | _ => false

/-! ## Virtual paths (`crates/ide/src/base.rs`)

`VfsPath(String)` is modelled with the string as a `List Char`. -/

/-- Rust `s.as_bytes().windows(2).any(|w| w == b"//")`. -/
def hasDoubleSlash : List Char → Bool
  | a :: b :: rest => (a = '/' && b = '/') || hasDoubleSlash (b :: rest)
  | _ => false

/-- Rust `s.starts_with('/')`. -/
def startsWithSlash (s : List Char) : Bool :=
  match s with
  | c :: _ => c = '/'
  | [] => false

/-- Rust `s.ends_with('/')`. -/
def endsWithSlash (s : List Char) : Bool :=
  match s.getLast? with
  | some c => c = '/'
  | none => false

/-- `ide::VfsPath`, a wrapped string. -/
structure VfsPath where
  chars : List Char
deriving DecidableEq

/-- `VfsPath::root`: the empty string. -/
def VfsPath.root : VfsPath := ⟨[]⟩

/-- `VfsPath::new`. -/
def VfsPath.new (s : List Char) : Option VfsPath :=
  if s = [] ∨ s = ['/'] then some VfsPath.root
  else if endsWithSlash s || hasDoubleSlash s then none
  else if startsWithSlash s then some ⟨s⟩
  else some ⟨'/' :: s⟩

/-- `VfsPath::from_path`: converts the path to a string (modelled as the
identity on character lists) and delegates to `VfsPath::new`. -/
def VfsPath.from_path (p : List Char) : Option VfsPath :=
  VfsPath.new p

/-- `VfsPath::push`: appends the relative path's string. -/
def VfsPath.push (p rel : VfsPath) : VfsPath :=
  ⟨p.chars ++ rel.chars⟩

/-- `VfsPath::push_segment`: appends `"/" + segment` if the segment
contains no `'/'`, otherwise fails. -/
def VfsPath.push_segment (p : VfsPath) (segment : List Char) : Option VfsPath :=
  if segment.contains '/' then none
  else some ⟨p.chars ++ '/' :: segment⟩

/-- The part of the string strictly before the last `'/'`:
`s.rsplit_once('/')` followed by truncation to the first component's
length, as in `VfsPath::pop`.  `none` when the string has no `'/'`. -/
def beforeLastSlash : List Char → Option (List Char)
  | [] => none
  | c :: rest =>
    match beforeLastSlash rest with
    | some l => some (c :: l)
    | none => if c = '/' then some [] else none

/-- `VfsPath::pop`. -/
def VfsPath.pop (p : VfsPath) : Option VfsPath :=
  (beforeLastSlash p.chars).map (fun l => ⟨l⟩)

/-- The documented type invariant of `VfsPath` (spec §3): never ends in
`'/'`, never contains `"//"`, and is either the empty root or carries a
leading `'/'`. -/
def VfsPath.invariant (p : VfsPath) : Prop :=
  p.chars = [] ∨
    (startsWithSlash p.chars = true ∧ endsWithSlash p.chars = false ∧
      hasDoubleSlash p.chars = false)

instance (p : VfsPath) : Decidable p.invariant := by
  unfold VfsPath.invariant; infer_instance

/-! ## `FileSet` and `SourceRoot` (`crates/ide/src/base.rs`)

The two `HashMap`s are modelled as functions into `Option`. -/

/-- `ide::FileSet`: a pair of hash maps. -/
structure FileSet where
  files : VfsPath → Option FileId
  paths : FileId → Option VfsPath

/-- `FileSet::default()`: both maps empty. -/
def FileSet.empty : FileSet :=
  { files := fun _ => none, paths := fun _ => none }

/-- `FileSet::insert`: unconditionally overwrites both map entries. -/
def FileSet.insert (s : FileSet) (file : FileId) (path : VfsPath) : FileSet :=
  { files := fun p => if p = path then some file else s.files p
    paths := fun f => if f = file then some path else s.paths f }

/-- `FileSet::remove_file`: drops the file's entry and, when present,
the entry of the path it was mapped to. -/
def FileSet.remove_file (s : FileSet) (file : FileId) : FileSet :=
  match s.paths file with
  | none => s
  | some path =>
    { files := fun p => if p = path then none else s.files p
      paths := fun f => if f = file then none else s.paths f }

/-- `FileSet::file_for_path`. -/
def FileSet.file_for_path (s : FileSet) (path : VfsPath) : Option FileId :=
  s.files path

/-- `FileSet::path_for_file` (total in Rust, panicking when absent;
modelled as the underlying lookup). -/
def FileSet.path_for_file (s : FileSet) (file : FileId) : Option VfsPath :=
  s.paths file

/-- The bijection invariant claimed for `FileSet` (spec §3):
`file_for_path ∘ path_for_file = id` on the set and symmetrically. -/
def FileSet.Bijection (s : FileSet) : Prop :=
  (∀ f p, s.path_for_file f = some p → s.file_for_path p = some f) ∧
  (∀ p f, s.file_for_path p = some f → s.path_for_file f = some p)

/-- `ide::SourceRoot`: a `FileSet` plus an optional entry file. -/
structure SourceRoot where
  file_set : FileSet
  entry : Option FileId

/-- `SourceRoot::new_local`. -/
def SourceRoot.new_local (file_set : FileSet) (entry : Option FileId) : SourceRoot :=
  { file_set := file_set, entry := entry }

/-- `SourceRoot::file_for_path`, delegating to the file set. -/
def SourceRoot.file_for_path (r : SourceRoot) (path : VfsPath) : Option FileId :=
  r.file_set.file_for_path path

/-- `SourceRoot::path_for_file`, delegating to the file set. -/
def SourceRoot.path_for_file (r : SourceRoot) (file : FileId) : Option VfsPath :=
  r.file_set.path_for_file file

/-! ## Server state and dispatch (`crates/nil/src/state.rs`) -/

/-- `MAX_DIAGNOSTICS_CNT`. -/
def MAX_DIAGNOSTICS_CNT : Nat := 128

/-- `ide::Cancelled`, the distinguished cancellation marker. -/
inductive Cancelled where
  | mk
deriving DecidableEq

/-- The dynamic error type (`Box<dyn Error>`) flowing out of a feature
handler: either the downcastable `Cancelled` marker or any other error,
carried as its `to_string()` rendering. -/
inductive HandlerError where
  | cancelled
  | other (msg : String)
deriving DecidableEq

/-- A serialized result payload (`R::Result` after `serde` encoding),
opaque to the dispatch logic. -/
abbrev Value := Nat

/-- The `lsp_server::ErrorCode` values used by `state.rs`. -/
inductive ErrorCode where
  | InvalidRequest
  | MethodNotFound
  | InvalidParams
  | InternalError
deriving DecidableEq

/-- `lsp_server::Response`: either a success or an error response. -/
inductive Response where
  | ok (id : Nat) (result : Value)
  | err (id : Nat) (code : ErrorCode) (message : String)
deriving DecidableEq

/-- Behaviour of one feature-handler invocation `f(snap, params)`:
it either returns a `Result` or panics, in which case the panic hook
records the panic location and the payload carries the reason. -/
inductive HandlerOutcome where
  | returns (ret : Except HandlerError Value)
  | panics (loc : String) (reason : String)

/-- `with_catch_unwind`: a normal return passes through; a panic is
caught and turned into an error message naming the request method, the
recorded panic location (`"unknown"` when empty) and the payload. -/
def with_catch_unwind (ctx : String) (outcome : HandlerOutcome) :
    Except HandlerError Value :=
  match outcome with
  | .returns ret => ret
  | .panics loc reason =>
    let loc1 := if loc = "" then "unknown" else loc
    .error (.other ("Request handler of " ++ ctx ++ " panicked at " ++ loc1
      ++ ": " ++ reason))

/-- `result_to_response`: `Ok` becomes a success response, a `Cancelled`
error is re-raised as `Err(Cancelled)`, any other error becomes an
internal-error response carrying the error's message. -/
def result_to_response (id : Nat) (ret : Except HandlerError Value) :
    Except Cancelled Response :=
  match ret with
  | .ok v => .ok (.ok id v)
  | .error .cancelled => .error .mk
  | .error (.other msg) => .ok (.err id .InternalError msg)

/-- An inbound request.  `paramsOk` models whether `serde` decoding of
the parameters succeeds; `outcome` models what the matched feature
handler does on these parameters against the current snapshot. -/
structure Request where
  id : Nat
  method : String
  paramsOk : Bool
  outcome : HandlerOutcome

/-- An inbound notification.  `uri` and `text` are the decoded document
URI and content for the `textDocument/did*` family (unused otherwise). -/
structure Notification where
  method : String
  uri : String
  text : String
deriving DecidableEq

/-- Messages sent by the server. -/
inductive Outgoing where
  | resp (r : Response)
  | publishDiagnostics (uri : String)
  | outgoingReq (method : String)
deriving DecidableEq

/-- Modelled from the spec: the crate `nil`'s `Vfs` (its source file is
not under `src/`).  Per spec §4.1 it maps URIs to file contents, rejects
URIs outside the workspace root with a well-defined error, and
accumulates a pending change set returned by `take_change`. -/
structure Vfs where
  root : String
  files : List (String × String)
  pending : List (String × String)
deriving DecidableEq

/-- Modelled from the spec: `Vfs::set_uri_content` — rejects URIs
outside the workspace root; otherwise stores the content and records
the change. -/
def Vfs.set_uri_content (vfs : Vfs) (uri text : String) : Except String Vfs :=
  if vfs.root.isPrefixOf uri then
    .ok { vfs with
          files := (uri, text) :: vfs.files.filter (fun e => e.1 ≠ uri)
          pending := vfs.pending ++ [(uri, text)] }
  else .error "URI outside workspace root"

/-- Modelled from the spec: `Vfs::file_for_uri` — lookup of a known
file by URI (the file is identified here by its URI). -/
def Vfs.file_for_uri (vfs : Vfs) (uri : String) : Option String :=
  (vfs.files.find? (fun e => e.1 = uri)).map (fun e => e.2)

/-- Modelled from the spec: `Vfs::change_file_content` — observably a
full-content set (spec §4.1); records the change. -/
def Vfs.change_file_content (vfs : Vfs) (uri text : String) : Vfs :=
  { vfs with
    files := (uri, text) :: vfs.files.filter (fun e => e.1 ≠ uri)
    pending := vfs.pending ++ [(uri, text)] }

/-- Modelled from the spec: `Vfs::take_change` — returns and clears the
accumulated change set. -/
def Vfs.take_change (vfs : Vfs) : Vfs × List (String × String) :=
  ({ vfs with pending := [] }, vfs.pending)

/-- The parts of `nil::State` the dispatch logic reads and writes, plus
the trace of messages sent (`sender`) and of feature handlers actually
invoked (for stating that no handler runs). -/
structure ServerState where
  is_shutdown : Bool
  opened_files : List String
  vfs : Vfs
  sent : List Outgoing
  ran : List String
deriving DecidableEq

/-- `sender.send(...)`. -/
def ServerState.send (st : ServerState) (o : Outgoing) : ServerState :=
  { st with sent := st.sent ++ [o] }

/-- The feature request methods registered by `dispatch_request`'s
chain of `.on::<R>(...)` handlers, in order. -/
def feature_methods : List String :=
  ["textDocument/definition", "textDocument/references",
   "textDocument/completion", "textDocument/selectionRange",
   "textDocument/prepareRename", "textDocument/rename",
   "textDocument/semanticTokens/full", "textDocument/semanticTokens/range",
   "textDocument/hover"]

/-- `State::apply_vfs_change` at the dispatch level: takes the pending
change set and publishes diagnostics for each changed file whose URI is
currently opened. -/
def ServerState.apply_vfs_change (st : ServerState) : ServerState :=
  let taken := st.vfs.take_change
  { st with
    vfs := taken.1
    sent := st.sent ++
      (taken.2.filter (fun c => st.opened_files.contains c.1)).map
        (fun c => Outgoing.publishDiagnostics c.1) }

/-- `State::dispatch_request`.  When a shutdown was already requested,
every request is answered with an `InvalidRequest` error and nothing
else happens.  Otherwise the dispatcher tries the `shutdown` handler,
then the feature handlers (whose results pass through
`with_catch_unwind` and `result_to_response`; a response is sent only
when `result_to_response` yields `Ok`), and falls back to a
`MethodNotFound` error response. -/
def dispatch_request (st : ServerState) (req : Request) : ServerState :=
  if st.is_shutdown then
    st.send (.resp (.err req.id .InvalidRequest "Shutdown already requested."))
  else if req.method = "shutdown" then
    if req.paramsOk then
      { st with is_shutdown := true
                sent := st.sent ++ [.resp (.ok req.id 0)] }
    else st.send (.resp (.err req.id .InvalidParams "invalid params"))
  else if req.method ∈ feature_methods then
    if req.paramsOk then
      let st1 := { st with ran := st.ran ++ [req.method] }
      match result_to_response req.id
          (with_catch_unwind req.method req.outcome) with
      | .ok resp => st1.send (.resp resp)
      | .error _ => st1
    else st.send (.resp (.err req.id .InvalidParams "invalid params"))
  else
    st.send (.resp (.err req.id .MethodNotFound ""))

/-- `State::dispatch_notification`.  `didOpen` inserts into the opened
set and sets the file content (an invalid URI propagates an error out of
the loop); `didClose` removes from the opened set without clearing the
text; `didChange` updates a known file's content (spec §4.1: splicing is
observably a full-content set; coordinate conversion is out of scope,
spec §1); `didChangeConfiguration` sends a configuration pull request
(the round-trip itself is out of scope, spec §1); anything else is
ignored. -/
def dispatch_notification (st : ServerState) (n : Notification) :
    Except String ServerState :=
  if n.method = "textDocument/didOpen" then
    let st1 := { st with
      opened_files := if st.opened_files.contains n.uri then st.opened_files
                      else st.opened_files ++ [n.uri] }
    match st1.vfs.set_uri_content n.uri n.text with
    | .ok vfs1 => .ok (ServerState.apply_vfs_change { st1 with vfs := vfs1 })
    | .error e => .error e
  else if n.method = "textDocument/didClose" then
    .ok { st with opened_files := st.opened_files.filter (fun u => u ≠ n.uri) }
  else if n.method = "textDocument/didChange" then
    match st.vfs.file_for_uri n.uri with
    | some _ => .ok (ServerState.apply_vfs_change
        { st with vfs := st.vfs.change_file_content n.uri n.text })
    | none => .ok st
  else if n.method = "workspace/didChangeConfiguration" then
    .ok (st.send (.outgoingReq "workspace/configuration"))
  else .ok st

/-- The message stream feeding `State::run`. -/
inductive Message where
  | request (r : Request)
  | notification (n : Notification)
  | response (id : Nat)

/-- Whether a message is the `exit` notification. -/
def isExitNotif : Message → Bool
  | .notification n => n.method = "exit"
  | _ => false

/-- The main loop of `State::run`, parametrized by the notification
dispatcher.  Requests are dispatched; an `exit` notification returns
`Ok(())`; other notifications may fail and abort the loop with their
error; responses complete pending outgoing requests (no modelled state
change); exhaustion of the stream is the channel closing, returning
`Err("Channel closed")`. -/
def runLoop (dn : ServerState → Notification → Except String ServerState) :
    ServerState → List Message → Except String Unit
  | _, [] => .error "Channel closed"
  | st, .request r :: rest => runLoop dn (dispatch_request st r) rest
  | st, .notification n :: rest =>
    if n.method = "exit" then .ok ()
    else
      match dn st n with
      | .ok st1 => runLoop dn st1 rest
      | .error e => .error e
  | st, .response _ :: rest => runLoop dn st rest

/-- One non-exit step of the main loop, as a state transformer. -/
def stepMsg (dn : ServerState → Notification → Except String ServerState)
    (st : ServerState) : Message → Except String ServerState
  | .request r => .ok (dispatch_request st r)
  | .notification n => dn st n
  | .response _ => .ok st

/-- Processing of a message block by repeated `stepMsg`. -/
def processMsgs (dn : ServerState → Notification → Except String ServerState) :
    ServerState → List Message → Except String ServerState
  | st, [] => .ok st
  | st, m :: rest =>
    match stepMsg dn st m with
    | .ok st1 => processMsgs dn st1 rest
    | .error e => .error e

/-! ## Diagnostics publishing (`State::apply_vfs_change`, detailed)

The per-file part of `apply_vfs_change`, at the granularity the claims
about diagnostics need: the actual `ide` diagnostics list, the cap, and
the conversion to protocol diagnostics (an arbitrary per-element map,
`convert::to_diagnostics` being outside the core). -/

/-- The diagnostics list published for one changed file:
`has_text.then(|| {diagnostics query; truncate; convert}).flatten()
.unwrap_or_default()`. -/
def publishedDiags {α : Type} (queryResult : Option (List Diagnostic))
    (hasText : Bool) (conv : Diagnostic → α) : List α :=
  match (if hasText
    then queryResult.map (fun diags => (diags.take MAX_DIAGNOSTICS_CNT).map conv)
    else none) with
  | some l => l
  | none => []

/-- Processing of one entry of the change set's `file_changes` inside
`apply_vfs_change`: returns the notification to publish, if any, and
the list of files the `diagnostics` query is run on. -/
def processFileChange {α : Type} (opened : List String)
    (uriFor : FileId → String) (query : FileId → Option (List Diagnostic))
    (conv : Diagnostic → α) (fc : FileId × Bool) :
    Option (String × List α) × List FileId :=
  if (uriFor fc.1) ∈ opened then
    (some (uriFor fc.1, publishedDiags (query fc.1) fc.2 conv),
     if fc.2 then [fc.1] else [])
  else (none, [])

/-- The whole diagnostics-publishing pass of `apply_vfs_change`: the
change set's `(file, text)` pairs are mapped to `(file, !text.is_empty())`
and each is processed in order. -/
def applyVfsChangePublish {α : Type} (opened : List String)
    (uriFor : FileId → String) (query : FileId → Option (List Diagnostic))
    (conv : Diagnostic → α) (fileChanges : List (FileId × String)) :
    List (String × List α) × List FileId :=
  let fcs := fileChanges.map (fun c => (c.1, !c.2.isEmpty))
  (fcs.filterMap (fun fc => (processFileChange opened uriFor query conv fc).1),
   fcs.flatMap (fun fc => (processFileChange opened uriFor query conv fc).2))

/-! ## Concrete states for counterexamples and witnesses -/

/-- A workspace VFS knowing one file. -/
def vfsA : Vfs :=
  { root := "file:///", files := [("file:///a.nix", "x")], pending := [] }

/-- A running server before any shutdown request. -/
def stActive : ServerState :=
  { is_shutdown := false, opened_files := [], vfs := vfsA, sent := [], ran := [] }

/-- A server in the `Stopping` state with one opened file. -/
def stStopping : ServerState :=
  { is_shutdown := true, opened_files := ["file:///a.nix"], vfs := vfsA,
    sent := [], ran := [] }

/-- A goto-definition request whose handler is cancelled mid-query. -/
def reqCancelled : Request :=
  { id := 1, method := "textDocument/definition", paramsOk := true,
    outcome := .returns (.error .cancelled) }

/-- A well-formed shutdown request. -/
def shutdownReq : Request :=
  { id := 2, method := "shutdown", paramsOk := true, outcome := .returns (.ok 0) }

/-- A hover request whose handler panics. -/
def reqPanic : Request :=
  { id := 3, method := "textDocument/hover", paramsOk := true,
    outcome := .panics "src/ide/hover.rs:42:1" "overflow" }

/-- The `exit` notification. -/
def exitNotif : Notification := { method := "exit", uri := "", text := "" }

/-- A `didClose` notification for the opened file. -/
def closeNotif : Notification :=
  { method := "textDocument/didClose", uri := "file:///a.nix", text := "" }

/-! # Theorems -/

/-! ## Helper lemmas about `VfsPath` strings -/

theorem hasDoubleSlash_eq_false_iff :
    ∀ l : List Char,
      hasDoubleSlash l = false ↔ List.Chain' (fun a b => a ≠ '/' ∨ b ≠ '/') l
  | [] => by simp [hasDoubleSlash]
  | [a] => by simp [hasDoubleSlash]
  | a :: b :: rest => by
    have ih := hasDoubleSlash_eq_false_iff (b :: rest)
    rw [List.chain'_cons, ← ih]
    simp [hasDoubleSlash, Bool.or_eq_false_iff, Bool.and_eq_false_iff,
      decide_eq_false_iff_not, imp_iff_not_or]

theorem chain'_cons_of_not_mem :
    ∀ (c : Char) (l : List Char), '/' ∉ l →
      List.Chain' (fun a b => a ≠ '/' ∨ b ≠ '/') (c :: l)
  | _, [], _ => List.chain'_singleton _
  | c, b :: rest, h => by
    rw [List.chain'_cons]
    refine ⟨Or.inr ?_, chain'_cons_of_not_mem b rest ?_⟩
    · exact fun hb => h (List.mem_cons.mpr (Or.inl hb.symm))
    · exact fun hr => h (List.mem_cons_of_mem _ hr)

theorem beforeLastSlash_eq_none : ∀ l, beforeLastSlash l = none → '/' ∉ l
  | [], _ => by simp
  | c :: rest, h => by
    unfold beforeLastSlash at h
    cases hb : beforeLastSlash rest with
    | some l1 => rw [hb] at h; cases h
    | none =>
      rw [hb] at h
      by_cases hc : c = '/'
      · rw [if_pos hc] at h; cases h
      · intro hm
        rcases List.mem_cons.mp hm with h1 | h2
        · exact hc h1.symm
        · exact beforeLastSlash_eq_none rest hb h2

theorem beforeLastSlash_eq_some :
    ∀ l res, beforeLastSlash l = some res →
      ∃ suf, l = res ++ '/' :: suf ∧ '/' ∉ suf
  | [], res, h => by cases h
  | c :: rest, res, h => by
    unfold beforeLastSlash at h
    cases hb : beforeLastSlash rest with
    | some l1 =>
      rw [hb] at h
      cases h
      obtain ⟨suf, hrest, hmem⟩ := beforeLastSlash_eq_some rest l1 hb
      exact ⟨suf, by rw [List.cons_append, ← hrest], hmem⟩
    | none =>
      rw [hb] at h
      by_cases hc : c = '/'
      · rw [if_pos hc] at h
        cases h
        exact ⟨rest, by rw [hc, List.nil_append], beforeLastSlash_eq_none rest hb⟩
      · rw [if_neg hc] at h; cases h

theorem startsWithSlash_append (p q : List Char) (h : p ≠ []) :
    startsWithSlash (p ++ q) = startsWithSlash p := by
  cases p with
  | nil => exact absurd rfl h
  | cons a t => rfl

theorem endsWithSlash_append (p q : List Char) (h : q ≠ []) :
    endsWithSlash (p ++ q) = endsWithSlash q := by
  unfold endsWithSlash
  rw [List.getLast?_append_of_ne_nil _ h]

theorem endsWithSlash_cons_cons (a b : Char) (l : List Char) :
    endsWithSlash (a :: b :: l) = endsWithSlash (b :: l) := by
  unfold endsWithSlash
  rw [List.getLast?_cons_cons]

theorem endsWithSlash_eq_false_iff (l : List Char) :
    endsWithSlash l = false ↔ ∀ x ∈ l.getLast?, x ≠ '/' := by
  unfold endsWithSlash
  cases h : l.getLast? with
  | none => simp
  | some c => simp [decide_eq_false_iff_not]

theorem new_invariant : ∀ s p, VfsPath.new s = some p → p.invariant := by
  intro s p h
  unfold VfsPath.new at h
  by_cases h1 : s = [] ∨ s = ['/']
  · rw [if_pos h1] at h; cases h; exact Or.inl rfl
  · rw [if_neg h1] at h
    by_cases h2 : (endsWithSlash s || hasDoubleSlash s) = true
    · rw [if_pos h2] at h; cases h
    · have h2' : (endsWithSlash s || hasDoubleSlash s) = false := by
        revert h2; cases (endsWithSlash s || hasDoubleSlash s) <;> simp
      obtain ⟨he, hd⟩ := Bool.or_eq_false_iff.mp h2'
      rw [if_neg h2] at h
      by_cases h3 : startsWithSlash s = true
      · rw [if_pos h3] at h; cases h; exact Or.inr ⟨h3, he, hd⟩
      · rw [if_neg h3] at h; cases h
        have hs : s ≠ [] := fun hnil => h1 (Or.inl hnil)
        obtain ⟨c, s', rfl⟩ := List.exists_cons_of_ne_nil hs
        have hc : c ≠ '/' := by
          intro hcc; apply h3; simp [startsWithSlash, hcc]
        refine Or.inr ⟨by simp [startsWithSlash], ?_, ?_⟩
        · show endsWithSlash ('/' :: c :: s') = false
          rw [endsWithSlash_cons_cons]; exact he
        · show hasDoubleSlash ('/' :: c :: s') = false
          simp only [hasDoubleSlash, Bool.or_eq_false_iff]
          exact ⟨by simp [hc], hd⟩

theorem push_invariant :
    ∀ p q : VfsPath, p.invariant → q.invariant → (p.push q).invariant := by
  intro p q hp hq
  unfold VfsPath.push
  rcases hq with hq0 | ⟨hq1, hq2, hq3⟩
  · rw [hq0, List.append_nil]; exact hp
  rcases hp with hp0 | ⟨hp1, hp2, hp3⟩
  · rw [hp0, List.nil_append]; exact Or.inr ⟨hq1, hq2, hq3⟩
  · have hpne : p.chars ≠ [] := by
      intro hh; rw [hh] at hp1; cases hp1
    have hqne : q.chars ≠ [] := by
      intro hh; rw [hh] at hq1; cases hq1
    refine Or.inr ⟨?_, ?_, ?_⟩
    · rw [startsWithSlash_append _ _ hpne]; exact hp1
    · rw [endsWithSlash_append _ _ hqne]; exact hq2
    · rw [hasDoubleSlash_eq_false_iff, List.chain'_append]
      refine ⟨(hasDoubleSlash_eq_false_iff _).mp hp3,
        (hasDoubleSlash_eq_false_iff _).mp hq3, ?_⟩
      intro x hx y _
      exact Or.inl ((endsWithSlash_eq_false_iff _).mp hp2 x hx)

theorem push_segment_invariant :
    ∀ (p : VfsPath) (seg : List Char) (q : VfsPath), p.invariant → seg ≠ [] →
      p.push_segment seg = some q → q.invariant := by
  intro p seg q hp hne h
  unfold VfsPath.push_segment List.contains at h
  simp only [List.elem_eq_mem, decide_eq_true_eq] at h
  by_cases hm : '/' ∈ seg
  · rw [if_pos hm] at h; cases h
  · rw [if_neg hm] at h; cases h
    refine Or.inr ⟨?_, ?_, ?_⟩
    · rcases hp with hp0 | ⟨hp1, _, _⟩
      · rw [hp0, List.nil_append]; simp [startsWithSlash]
      · have hpne : p.chars ≠ [] := by
          intro hh; rw [hh] at hp1; cases hp1
        show startsWithSlash (p.chars ++ '/' :: seg) = true
        rw [startsWithSlash_append _ _ hpne]; exact hp1
    · show endsWithSlash (p.chars ++ '/' :: seg) = false
      rw [endsWithSlash_append _ _ (by simp)]
      obtain ⟨b, s', rfl⟩ := List.exists_cons_of_ne_nil hne
      rw [endsWithSlash_cons_cons, endsWithSlash_eq_false_iff]
      intro x hx hx'
      exact hm (hx' ▸ List.mem_of_mem_getLast? hx)
    · show hasDoubleSlash (p.chars ++ '/' :: seg) = false
      rw [hasDoubleSlash_eq_false_iff, List.chain'_append]
      refine ⟨?_, chain'_cons_of_not_mem '/' seg hm, ?_⟩
      · rcases hp with hp0 | ⟨_, _, hp3⟩
        · rw [hp0]; exact List.chain'_nil
        · exact (hasDoubleSlash_eq_false_iff _).mp hp3
      · intro x hx y _
        rcases hp with hp0 | ⟨_, hp2, _⟩
        · rw [hp0] at hx; cases hx
        · exact Or.inl ((endsWithSlash_eq_false_iff _).mp hp2 x hx)

theorem pop_invariant :
    ∀ p q : VfsPath, p.invariant → p.pop = some q → q.invariant := by
  intro p q hp h
  unfold VfsPath.pop at h
  cases hb : beforeLastSlash p.chars with
  | none => rw [hb] at h; cases h
  | some l =>
    rw [hb] at h
    cases h
    obtain ⟨suf, hsplit, _⟩ := beforeLastSlash_eq_some _ _ hb
    by_cases hl : l = []
    · exact Or.inl (by rw [hl])
    · rcases hp with hp0 | ⟨hp1, hp2, hp3⟩
      · rw [hp0] at hsplit; simp at hsplit
      · refine Or.inr ⟨?_, ?_, ?_⟩
        · have hsw := startsWithSlash_append l ('/' :: suf) hl
          rw [← hsplit] at hsw
          rw [← hsw]; exact hp1
        · have hch := (hasDoubleSlash_eq_false_iff _).mp hp3
          rw [hsplit, List.chain'_append] at hch
          obtain ⟨_, _, hjun⟩ := hch
          rw [endsWithSlash_eq_false_iff]
          intro x hx
          rcases hjun x hx '/' rfl with h1 | h2
          · exact h1
          · exact absurd rfl h2
        · have hch := (hasDoubleSlash_eq_false_iff _).mp hp3
          rw [hsplit, List.chain'_append] at hch
          exact (hasDoubleSlash_eq_false_iff _).mpr hch.1

/-! ## C3 -/

/-- C3: severity, "unnecessary" and "deprecated" of a diagnostic are pure
functions of its kind and agree with the specification's table:
`InvalidDynamic`, `DuplicatedKey`, `UndefinedName` and the syntax errors
`MultipleRoots`, `PathTrailingSlash`, `PathDuplicatedSlashes`,
`MultipleNoAssoc` are `Error`; the missing-token/expr/elem/attr/param/
binding and `NestTooDeep` syntax errors are `IncompleteSyntax`; all
remaining kinds are `Warning`; exactly `EmptyInherit`, `UnusedBinding`,
`UnusedWith`, `UnusedRec` are "unnecessary"; exactly `LetAttrset`,
`UriLiteral` are "deprecated". -/
theorem diagnostic_aspects_match_spec :
    ∀ d : Diagnostic,
      d.severity = specSeverity d.kind ∧
      d.is_unnecessary = specUnnecessary d.kind ∧
      d.is_deprecated = specDeprecated d.kind := by
  intro d
  obtain ⟨r, k, n⟩ := d
  cases k <;> try exact ⟨rfl, rfl, rfl⟩
  next sk => cases sk <;> exact ⟨rfl, rfl, rfl⟩

/-! ## C4 -/

/-- C4: the diagnostics list published for a file is the conversion of a
prefix of the full `diagnostics(file)` result — the first
`MAX_DIAGNOSTICS_CNT = 128` elements, in order — and its length never
exceeds the cap. -/
theorem published_diagnostics_truncation {α : Type} :
    ∀ (diags : List Diagnostic) (conv : Diagnostic → α),
      publishedDiags (some diags) true conv
          = (diags.take MAX_DIAGNOSTICS_CNT).map conv ∧
      diags.take MAX_DIAGNOSTICS_CNT ++ diags.drop MAX_DIAGNOSTICS_CNT = diags ∧
      (publishedDiags (some diags) true conv).length ≤ MAX_DIAGNOSTICS_CNT := by
  intro diags conv
  refine ⟨rfl, List.take_append_drop _ _, ?_⟩
  show ((diags.take MAX_DIAGNOSTICS_CNT).map conv).length ≤ MAX_DIAGNOSTICS_CNT
  rw [List.length_map, List.length_take]
  exact min_le_left _ _

/-! ## C5 -/

/-- C5 counterexample: `"a/b"` lacks the leading `'/'` demanded of
normalized paths, yet `VfsPath::new` accepts it and normalizes it to
`"/a/b"` instead of rejecting it. -/
theorem new_accepts_unnormalized_input :
    startsWithSlash ['a', '/', 'b'] = false ∧
    VfsPath.new ['a', '/', 'b'] = some ⟨['/', 'a', '/', 'b']⟩ := by decide

/-- C5 (amended): `VfsPath::new` returns the root for `""` and `"/"`;
for every other string it returns `none` exactly when the string ends in
`'/'` or contains `"//"` (in particular for `"a/"` and `"a//b"`); a
remaining accepted string is kept as-is when it starts with `'/'` and
otherwise is normalized by prepending a leading `'/'` rather than
rejected. -/
theorem vfsPath_new_spec :
    (VfsPath.new [] = some VfsPath.root) ∧
    (VfsPath.new ['/'] = some VfsPath.root) ∧
    (VfsPath.new ['a', '/'] = none) ∧
    (VfsPath.new ['a', '/', '/', 'b'] = none) ∧
    (∀ s, s ≠ [] → s ≠ ['/'] →
      (endsWithSlash s = true ∨ hasDoubleSlash s = true) →
      VfsPath.new s = none) ∧
    (∀ s, s ≠ [] → s ≠ ['/'] → endsWithSlash s = false → hasDoubleSlash s = false →
      VfsPath.new s
        = some (if startsWithSlash s then ⟨s⟩ else ⟨'/' :: s⟩)) := by
  refine ⟨by decide, by decide, by decide, by decide, ?_, ?_⟩
  · intro s h1 h2 h3
    unfold VfsPath.new
    rw [if_neg (not_or.mpr ⟨h1, h2⟩), if_pos (by
      rcases h3 with h3 | h3 <;> simp [h3])]
  · intro s h1 h2 h3 h4
    unfold VfsPath.new
    rw [if_neg (not_or.mpr ⟨h1, h2⟩), if_neg (by simp [h3, h4])]
    by_cases h5 : startsWithSlash s = true
    · rw [if_pos h5, if_pos h5]
    · rw [if_neg h5, if_neg h5]

/-- Closed instance of the hypotheses of `vfsPath_new_spec`. -/
theorem vfsPath_new_spec_witness :
    VfsPath.new ['a', 'b']
      = some (if startsWithSlash ['a', 'b'] then ⟨['a', 'b']⟩
              else ⟨'/' :: ['a', 'b']⟩) :=
  vfsPath_new_spec.2.2.2.2.2 ['a', 'b'] (by decide) (by decide) (by decide)
    (by decide)

/-! ## C6 -/

/-- C6 counterexample: pushing the empty segment onto the (invariant-
satisfying) root yields the path `"/"`, which ends in `'/'` and so
violates the invariant. -/
theorem push_segment_breaks_invariant :
    VfsPath.push_segment VfsPath.root [] = some ⟨['/']⟩ ∧
    VfsPath.root.invariant ∧ ¬ VfsPath.invariant ⟨['/']⟩ := by decide

/-- C6 (amended): every `VfsPath` produced by `new` or `from_path`
satisfies the type invariant, and `push`, `pop` and — for a nonempty
segment — `push_segment` map invariant-satisfying paths to
invariant-satisfying paths.  (The empty segment is the one exception,
per the counterexample.) -/
theorem vfsPath_operations_preserve_invariant :
    (∀ s p, VfsPath.new s = some p → p.invariant) ∧
    (∀ s p, VfsPath.from_path s = some p → p.invariant) ∧
    (∀ p q : VfsPath, p.invariant → q.invariant → (p.push q).invariant) ∧
    (∀ (p : VfsPath) (seg : List Char) (q : VfsPath), p.invariant →
      seg ≠ [] → p.push_segment seg = some q → q.invariant) ∧
    (∀ p q : VfsPath, p.invariant → p.pop = some q → q.invariant) :=
  ⟨new_invariant, fun s p h => new_invariant s p h, push_invariant,
    push_segment_invariant, pop_invariant⟩

/-- Closed instance of the hypotheses of
`vfsPath_operations_preserve_invariant`. -/
theorem vfsPath_operations_preserve_invariant_witness :
    VfsPath.invariant ⟨['/', 'a', '/', 'b']⟩ :=
  vfsPath_operations_preserve_invariant.2.2.2.1 ⟨['/', 'a']⟩ ['b']
    ⟨['/', 'a', '/', 'b']⟩
    (vfsPath_operations_preserve_invariant.1 ['a'] ⟨['/', 'a']⟩ (by decide))
    (by decide) (by decide)

/-! ## C7 -/

/-- C7 counterexample: inserting two different files under the same path
(a legal sequence of `insert` operations) leaves the first file still
mapped to the path while the path maps to the second file, so the two
lookup maps are not inverse on the contained set. -/
theorem fileset_insert_same_path_breaks_bijection :
    ((FileSet.empty.insert ⟨1⟩ VfsPath.root).insert ⟨2⟩
        VfsPath.root).path_for_file ⟨1⟩ = some VfsPath.root ∧
    ((FileSet.empty.insert ⟨1⟩ VfsPath.root).insert ⟨2⟩
        VfsPath.root).file_for_path VfsPath.root = some ⟨2⟩ ∧
    ¬ ((FileSet.empty.insert ⟨1⟩ VfsPath.root).insert ⟨2⟩
        VfsPath.root).Bijection := by
  refine ⟨by decide, by decide, ?_⟩
  intro hb
  have h1 := hb.1 ⟨1⟩ VfsPath.root (by decide)
  have h2 : ((FileSet.empty.insert ⟨1⟩ VfsPath.root).insert ⟨2⟩
      VfsPath.root).file_for_path VfsPath.root = some ⟨2⟩ := by decide
  rw [h1] at h2
  exact absurd h2 (by decide)

/-- C7 (amended): the bijection between the two lookup maps holds for
the empty `FileSet`, is always preserved by `remove_file`, and is
preserved by `insert file path` provided the path is not currently bound
to a different file and the file is not currently bound to a different
path (without this freshness condition the counterexample applies); the
`SourceRoot` wrapper inherits the round-trip laws from its `FileSet`. -/
theorem fileset_bijection_preservation :
    FileSet.empty.Bijection ∧
    (∀ (s : FileSet) (file : FileId) (path : VfsPath), s.Bijection →
      (∀ f, s.file_for_path path = some f → f = file) →
      (∀ p, s.path_for_file file = some p → p = path) →
      (s.insert file path).Bijection) ∧
    (∀ (s : FileSet) (file : FileId), s.Bijection →
      (s.remove_file file).Bijection) ∧
    (∀ r : SourceRoot, r.file_set.Bijection →
      (∀ f p, r.path_for_file f = some p → r.file_for_path p = some f) ∧
      (∀ p f, r.file_for_path p = some f → r.path_for_file f = some p)) := by
  refine ⟨?_, ?_, ?_, ?_⟩
  · constructor
    · intro f p h
      exact Option.noConfusion h
    · intro p f h
      exact Option.noConfusion h
  · intro s file path hs hfresh1 hfresh2
    constructor
    · intro f p hfp
      simp only [FileSet.path_for_file, FileSet.insert] at hfp
      simp only [FileSet.file_for_path, FileSet.insert]
      by_cases hf : f = file
      · subst hf
        rw [if_pos rfl] at hfp
        injection hfp with hp
        subst hp
        rw [if_pos rfl]
      · rw [if_neg hf] at hfp
        by_cases hp : p = path
        · subst hp
          exact absurd (hfresh1 f (hs.1 f p hfp)) hf
        · rw [if_neg hp]
          exact hs.1 f p hfp
    · intro p f hpf
      simp only [FileSet.file_for_path, FileSet.insert] at hpf
      simp only [FileSet.path_for_file, FileSet.insert]
      by_cases hp : p = path
      · subst hp
        rw [if_pos rfl] at hpf
        injection hpf with hf
        subst hf
        rw [if_pos rfl]
      · rw [if_neg hp] at hpf
        by_cases hf : f = file
        · subst hf
          exact absurd (hfresh2 p (hs.2 p f hpf)) hp
        · rw [if_neg hf]
          exact hs.2 p f hpf
  · intro s file hs
    unfold FileSet.remove_file
    cases hsf : s.paths file with
    | none => exact hs
    | some path =>
      constructor
      · intro f p hfp
        have hfp1 : (if f = file then none else s.paths f) = some p := hfp
        by_cases hf : f = file
        · rw [if_pos hf] at hfp1; exact Option.noConfusion hfp1
        · rw [if_neg hf] at hfp1
          have h1 : s.files p = some f := hs.1 f p hfp1
          show (if p = path then none else s.files p) = some f
          by_cases hp : p = path
          · subst hp
            have h2 : s.files p = some file := hs.1 file p hsf
            rw [h1] at h2
            injection h2 with h2
            exact absurd h2 hf
          · rw [if_neg hp]
            exact h1
      · intro p f hpf
        have hpf1 : (if p = path then none else s.files p) = some f := hpf
        by_cases hp : p = path
        · rw [if_pos hp] at hpf1; exact Option.noConfusion hpf1
        · rw [if_neg hp] at hpf1
          have h1 : s.paths f = some p := hs.2 p f hpf1
          show (if f = file then none else s.paths f) = some p
          by_cases hf : f = file
          · subst hf
            rw [hsf] at h1
            injection h1 with h1
            exact absurd h1.symm hp
          · rw [if_neg hf]
            exact h1
  · intro r hb
    exact ⟨fun f p h => hb.1 f p h, fun p f h => hb.2 p f h⟩

/-- Closed instance of the hypotheses of `fileset_bijection_preservation`:
a fresh insert followed by a remove keeps the bijection. -/
theorem fileset_bijection_preservation_witness :
    ((FileSet.empty.insert ⟨1⟩ VfsPath.root).remove_file ⟨1⟩).Bijection :=
  fileset_bijection_preservation.2.2.1 _ ⟨1⟩
    (fileset_bijection_preservation.2.1 FileSet.empty ⟨1⟩ VfsPath.root
      fileset_bijection_preservation.1
      (fun _ h => Option.noConfusion h) (fun _ h => Option.noConfusion h))

/-! ## C1 -/

/-- C1 counterexample: a feature request whose handler terminates with
the distinguished `Cancelled` error is answered with NO response at all
— the sent-message trace stays empty — although the handler did run. -/
theorem cancelled_request_gets_no_response :
    (dispatch_request stActive reqCancelled).sent = [] ∧
    (dispatch_request stActive reqCancelled).ran
      = ["textDocument/definition"] := by
  exact ⟨rfl, rfl⟩

/-- C1 (amended): when a feature handler terminates with `Cancelled`,
`result_to_response` re-raises the marker instead of building a
response, and the dispatcher then sends nothing for that request —
neither a "request cancelled" response nor an internal-error response;
only the record of the handler having run changes. -/
theorem cancelled_converted_to_no_response :
    ∀ (st : ServerState) (req : Request),
      st.is_shutdown = false → req.method ∈ feature_methods →
      req.paramsOk = true →
      req.outcome = .returns (.error .cancelled) →
      result_to_response req.id (with_catch_unwind req.method req.outcome)
          = .error .mk ∧
      dispatch_request st req = { st with ran := st.ran ++ [req.method] } := by
  intro st req hsd hm hp ho
  have hns : ¬ req.method = "shutdown" := by
    intro hx; rw [hx] at hm; exact absurd hm (by decide)
  constructor
  · rw [ho]
    exact rfl
  · unfold dispatch_request
    rw [if_neg (by simp [hsd]), if_neg hns, if_pos hm, if_pos hp, ho]
    exact rfl

/-- Closed instance of the hypotheses of
`cancelled_converted_to_no_response`. -/
theorem cancelled_converted_to_no_response_witness :
    result_to_response reqCancelled.id
        (with_catch_unwind reqCancelled.method reqCancelled.outcome)
      = .error .mk ∧
    dispatch_request stActive reqCancelled
      = { stActive with ran := stActive.ran ++ [reqCancelled.method] } :=
  cancelled_converted_to_no_response stActive reqCancelled rfl (by decide)
    rfl rfl

/-! ## C2 -/

/-- C2 counterexample: with the server in the `Stopping` state, a
`didClose` notification — a message other than `exit` — is still
dispatched and processed: it removes the file from the opened set. -/
theorem notification_accepted_after_shutdown :
    stStopping.is_shutdown = true ∧
    closeNotif.method ≠ "exit" ∧
    dispatch_notification stStopping closeNotif
      = .ok { stStopping with opened_files := [] } := by
  refine ⟨rfl, by decide, rfl⟩

/-- C2 (amended): after a shutdown request has been accepted, every
dispatched request, regardless of method, is answered with exactly the
`InvalidRequest` "Shutdown already requested." error response — no
feature handler runs and nothing else changes — and the `exit`
notification still terminates the main loop successfully.  (Other
notifications are nevertheless still dispatched to their handlers, per
the counterexample.) -/
theorem requests_rejected_after_shutdown :
    ∀ (st : ServerState) (req : Request) (n : Notification)
      (rest : List Message)
      (dn : ServerState → Notification → Except String ServerState),
      st.is_shutdown = true → n.method = "exit" →
      dispatch_request st req
          = { st with sent := st.sent ++ [.resp (.err req.id .InvalidRequest
              "Shutdown already requested.")] } ∧
      runLoop dn st (.notification n :: rest) = .ok () := by
  intro st req n rest dn hsd hn
  constructor
  · unfold dispatch_request
    rw [if_pos hsd]
    rfl
  · unfold runLoop
    rw [if_pos hn]

/-- Closed instance of the hypotheses of
`requests_rejected_after_shutdown`. -/
theorem requests_rejected_after_shutdown_witness :
    dispatch_request stStopping shutdownReq
      = { stStopping with sent := stStopping.sent ++
          [.resp (.err shutdownReq.id .InvalidRequest
            "Shutdown already requested.")] } ∧
    runLoop dispatch_notification stStopping [.notification exitNotif]
      = .ok () :=
  requests_rejected_after_shutdown stStopping shutdownReq exitNotif []
    dispatch_notification rfl rfl

/-! ## C8 -/

/-- C8: a panic in a feature handler is caught at the request boundary:
the dispatcher sends an internal-error response whose message contains
the recorded panic location, and the main loop goes on dispatching the
remaining messages from the state left by the request. -/
theorem panic_caught_and_reported :
    ∀ (st : ServerState) (req : Request) (loc reason : String)
      (rest : List Message)
      (dn : ServerState → Notification → Except String ServerState),
      st.is_shutdown = false → req.method ∈ feature_methods →
      req.paramsOk = true → req.outcome = .panics loc reason → loc ≠ "" →
      dispatch_request st req
          = { st with
              ran := st.ran ++ [req.method]
              sent := st.sent ++ [.resp (.err req.id .InternalError
                ("Request handler of " ++ req.method ++ " panicked at "
                  ++ loc ++ ": " ++ reason))] } ∧
      (∃ before after,
        ("Request handler of " ++ req.method ++ " panicked at " ++ loc
          ++ ": " ++ reason) = before ++ (loc ++ after)) ∧
      runLoop dn st (.request req :: rest)
          = runLoop dn (dispatch_request st req) rest := by
  intro st req loc reason rest dn hsd hm hp ho hloc
  have hns : ¬ req.method = "shutdown" := by
    intro hx; rw [hx] at hm; exact absurd hm (by decide)
  refine ⟨?_, ?_, rfl⟩
  · unfold dispatch_request
    rw [if_neg (by simp [hsd]), if_neg hns, if_pos hm, if_pos hp, ho]
    simp only [with_catch_unwind]
    rw [if_neg hloc]
    exact rfl
  · refine ⟨"Request handler of " ++ req.method ++ " panicked at ",
      ": " ++ reason, ?_⟩
    simp [String.append_assoc]

/-- Closed instance of the hypotheses of `panic_caught_and_reported`. -/
theorem panic_caught_and_reported_witness :
    dispatch_request stActive reqPanic
      = { stActive with
          ran := stActive.ran ++ [reqPanic.method]
          sent := stActive.sent ++ [.resp (.err reqPanic.id .InternalError
            ("Request handler of " ++ reqPanic.method ++ " panicked at "
              ++ "src/ide/hover.rs:42:1" ++ ": " ++ "overflow"))] } :=
  (panic_caught_and_reported stActive reqPanic "src/ide/hover.rs:42:1"
    "overflow" [] dispatch_notification rfl (by decide) rfl rfl
    (by decide)).1

/-! ## C9 -/

/-- C9 counterexample: an `exit` notification that is NOT preceded by
any shutdown request still makes the main loop return success (process
exit code 0). -/
theorem exit_without_shutdown_returns_ok :
    stActive.is_shutdown = false ∧
    runLoop dispatch_notification stActive [.notification exitNotif]
      = .ok () :=
  ⟨rfl, rfl⟩

/-- C9 (amended): the main loop returns success exactly when it reaches
an `exit` notification, with or without a preceding shutdown request:
a prefix of non-exit messages processed without notification errors
followed by `exit` yields success, and a stream containing no `exit`
notification — in particular one whose channel closes before shutdown —
never does. -/
theorem run_loop_exit_code :
    ∀ (dn : ServerState → Notification → Except String ServerState),
      (∀ (st st1 : ServerState) (pre rest : List Message) (n : Notification),
        n.method = "exit" → (∀ m ∈ pre, isExitNotif m = false) →
        processMsgs dn st pre = .ok st1 →
        runLoop dn st (pre ++ .notification n :: rest) = .ok ()) ∧
      (∀ (st : ServerState) (msgs : List Message),
        (∀ m ∈ msgs, isExitNotif m = false) →
        runLoop dn st msgs ≠ .ok ()) := by
  intro dn
  constructor
  · intro st st1 pre
    induction pre generalizing st with
    | nil =>
      intro rest n hn _ _
      simp only [List.nil_append]
      unfold runLoop
      rw [if_pos hn]
    | cons m pre ih =>
      intro rest n hn hpre hproc
      have hm := hpre m (List.mem_cons_self m pre)
      have hpre1 : ∀ x ∈ pre, isExitNotif x = false :=
        fun x hx => hpre x (List.mem_cons_of_mem m hx)
      cases m with
      | request r =>
        simp only [processMsgs, stepMsg] at hproc
        simp only [List.cons_append]
        unfold runLoop
        exact ih (dispatch_request st r) rest n hn hpre1 hproc
      | notification nn =>
        have hne : ¬ nn.method = "exit" := by
          simpa [isExitNotif] using hm
        simp only [processMsgs, stepMsg] at hproc
        simp only [List.cons_append]
        unfold runLoop
        rw [if_neg hne]
        cases hdn : dn st nn with
        | ok st2 =>
          rw [hdn] at hproc
          exact ih st2 rest n hn hpre1 hproc
        | error e =>
          rw [hdn] at hproc
          exact Except.noConfusion hproc
      | response i =>
        simp only [processMsgs, stepMsg] at hproc
        simp only [List.cons_append]
        unfold runLoop
        exact ih st rest n hn hpre1 hproc
  · intro st msgs
    induction msgs generalizing st with
    | nil =>
      intro _ h
      exact Except.noConfusion h
    | cons m rest ih =>
      intro hall h
      have hm := hall m (List.mem_cons_self m rest)
      have hrest : ∀ x ∈ rest, isExitNotif x = false :=
        fun x hx => hall x (List.mem_cons_of_mem m hx)
      cases m with
      | request r =>
        unfold runLoop at h
        exact ih (dispatch_request st r) hrest h
      | notification nn =>
        have hne : ¬ nn.method = "exit" := by
          simpa [isExitNotif] using hm
        unfold runLoop at h
        rw [if_neg hne] at h
        cases hdn : dn st nn with
        | ok st2 =>
          rw [hdn] at h
          exact ih st2 hrest h
        | error e =>
          rw [hdn] at h
          exact Except.noConfusion h
      | response i =>
        unfold runLoop at h
        exact ih st hrest h

/-- Closed instance of the hypotheses of `run_loop_exit_code`: a
shutdown request followed by `exit` returns success, and a stream that
closes after only a shutdown request does not. -/
theorem run_loop_exit_code_witness :
    runLoop dispatch_notification stActive
        [.request shutdownReq, .notification exitNotif] = .ok () ∧
    runLoop dispatch_notification stActive [.request shutdownReq]
      ≠ .ok () :=
  ⟨(run_loop_exit_code dispatch_notification).1 stActive
      (dispatch_request stActive shutdownReq) [.request shutdownReq] []
      exitNotif rfl (by decide) rfl,
   (run_loop_exit_code dispatch_notification).2 stActive
      [.request shutdownReq] (by decide)⟩

/-! ## C10 -/

/-- C10: after applying a VFS change set, a changed file produces a
publish notification only when its URI is in the opened-files set —
every published URI is opened and a non-opened changed file produces
nothing — and a changed opened file whose new content is empty receives
an empty published diagnostics list with the diagnostics query not run
on it. -/
theorem publish_only_for_opened_files {α : Type} :
    ∀ (opened : List String) (uriFor : FileId → String)
      (query : FileId → Option (List Diagnostic)) (conv : Diagnostic → α)
      (f : FileId) (text : String) (changes : List (FileId × String)),
      (uriFor f ∉ opened →
        processFileChange opened uriFor query conv (f, !text.isEmpty)
          = (none, [])) ∧
      (uriFor f ∈ opened → text = "" →
        processFileChange opened uriFor query conv (f, !text.isEmpty)
          = (some (uriFor f, []), [])) ∧
      (∀ pr ∈ (applyVfsChangePublish opened uriFor query conv changes).1,
        pr.1 ∈ opened) := by
  intro opened uriFor query conv f text changes
  refine ⟨?_, ?_, ?_⟩
  · intro hno
    unfold processFileChange
    rw [if_neg hno]
  · intro hyes htext
    subst htext
    unfold processFileChange
    rw [if_pos hyes]
    rfl
  · intro pr hpr
    simp only [applyVfsChangePublish, List.mem_filterMap] at hpr
    obtain ⟨fc, _, hfc⟩ := hpr
    unfold processFileChange at hfc
    by_cases hin : uriFor fc.1 ∈ opened
    · rw [if_pos hin] at hfc
      dsimp only at hfc
      injection hfc with hfc
      rw [← hfc]
      exact hin
    · rw [if_neg hin] at hfc
      dsimp only at hfc
      exact Option.noConfusion hfc

/-- Closed instance of the hypotheses of `publish_only_for_opened_files`. -/
theorem publish_only_for_opened_files_witness :
    processFileChange ["file:///a.nix"] (fun _ => "file:///b.nix")
        (fun _ => none) (fun d => d) (⟨0⟩, !"x".isEmpty) = (none, []) ∧
    processFileChange ["file:///a.nix"] (fun _ => "file:///a.nix")
        (fun _ => none) (fun d => d) (⟨0⟩, !"".isEmpty)
      = (some ("file:///a.nix", []), []) :=
  ⟨(publish_only_for_opened_files ["file:///a.nix"] (fun _ => "file:///b.nix")
      (fun _ => none) (fun d => d) ⟨0⟩ "x" []).1 (by decide),
   (publish_only_for_opened_files ["file:///a.nix"] (fun _ => "file:///a.nix")
      (fun _ => none) (fun d => d) ⟨0⟩ "" []).2.1 (by decide) rfl⟩

end Nil
